import Mathlib

/-!
Verification of the `mist-cli` interactive ssh session bridge (`src/main.go`)
against its natural-language specification.

The Go source is shallowly embedded: pure string manipulation becomes Lean
functions on `String` / `List Char`, the effectful body of the `ssh`
command's `Run` closure becomes a pure function from an environment of
external outcomes (config lookup, HTTP response, websocket dial results,
terminal operations) to a trace of observable events, with Go `defer`
modelled as an explicitly threaded LIFO stack of cleanup events.
Durations are in nanoseconds, exactly like Go's `time.Duration`.
-/

namespace MistCli

/-! ### Timing constants (src/main.go lines 89-96) -/

/-- Go `time.Second` in nanoseconds. -/
def second : Nat := 1000000000

/-- `writeWait := 2 * time.Second` — time allowed to write a message to the peer. -/
def writeWait : Nat := 2 * second

/-- `pongWait := 10 * time.Second` — time allowed to read the next pong. -/
def pongWait : Nat := 10 * second

/-- `pingPeriod := (pongWait * 9) / 10` (Go integer division on `time.Duration`). -/
def pingPeriod : Nat := (pongWait * 9) / 10

/-! ### Go `strings` helpers over `List Char` -/

/-- Go `strings.HasPrefix(s, pre)` on character lists:
`len(s) >= len(pre) && s[0:len(pre)] == pre`. -/
def charsHaveHead : List Char → List Char → Bool
  | _, [] => true
  | [], _ :: _ => false
  | a :: s, b :: p => a == b && charsHaveHead s p

/-- Go `strings.HasSuffix(s, suf)` on character lists. -/
def charsHaveTail (s suf : List Char) : Bool :=
  charsHaveHead s.reverse suf.reverse

/-- Go `strings.HasPrefix` on `String`. -/
def goHasPre (s p : String) : Bool := charsHaveHead s.data p.data

/-- Go `strings.HasSuffix` on `String`. -/
def goHasSuf (s p : String) : Bool := charsHaveTail s.data p.data

/-! ### Server address normalization (src/main.go lines 108-113)

```go
if !strings.HasSuffix(server, "/") {
    server = server + "/"
}
if !strings.HasPrefix(server, "http") {
    server = "http://" + server
}
```
-/

/-- The two normalization steps applied to the configured server address,
in the source's order: trailing slash first, then scheme. -/
def normalizeServer (server : String) : String :=
  let server := if ¬ goHasSuf server "/" then server ++ "/" else server
  if ¬ goHasPre server "http" then "http://" ++ server else server

/-- The request path built at line 114:
`path := server + "api/v2/machines/" + machine + "/actions/ssh"`. -/
def sessionPath (server machine : String) : String :=
  normalizeServer server ++ "api/v2/machines/" ++ machine ++ "/actions/ssh"

/-! ### Lemmas about the normalization -/

theorem charsHaveHead_append (s p t : List Char) (h : charsHaveHead s p = true) :
    charsHaveHead (s ++ t) p = true := by
  induction p generalizing s with
  | nil => simp [charsHaveHead]
  | cons b p ih =>
    cases s with
    | nil => simp [charsHaveHead] at h
    | cons a s =>
      simp only [charsHaveHead, Bool.and_eq_true] at h ⊢
      exact ⟨h.1, ih s h.2⟩

theorem charsHaveTail_prepend (s p t : List Char) (h : charsHaveTail s p = true) :
    charsHaveTail (t ++ s) p = true := by
  unfold charsHaveTail at h ⊢
  rw [List.reverse_append]
  exact charsHaveHead_append _ _ _ h

theorem goHasSuf_slash_after_step1 (server : String) :
    goHasSuf (if ¬ goHasSuf server "/" then server ++ "/" else server) "/" = true := by
  by_cases h : goHasSuf server "/" = true
  · simp [h]
  · simp only [Bool.not_eq_true] at h
    simp only [h, Bool.false_eq_true, not_false_iff, if_pos, if_true]
    show charsHaveTail (server ++ "/").data _ = true
    have hdata : (server ++ "/").data = server.data ++ ['/'] := by
      simp [String.data_append]
    rw [hdata]
    unfold charsHaveTail
    simp [charsHaveHead]

theorem normalizeServer_spec (server : String) :
    goHasPre (normalizeServer server) "http" = true ∧
    goHasSuf (normalizeServer server) "/" = true := by
  unfold normalizeServer
  set s1 : String := if ¬ goHasSuf server "/" then server ++ "/" else server with hs1
  have hsuf : goHasSuf s1 "/" = true := goHasSuf_slash_after_step1 server
  by_cases hp : goHasPre s1 "http" = true
  · have hcond : ¬ (¬ goHasPre s1 "http" = true) := by simp [hp]
    rw [if_neg hcond]
    exact ⟨hp, hsuf⟩
  · simp only [Bool.not_eq_true] at hp
    simp only [hp, Bool.false_eq_true, not_false_iff, if_pos, if_true]
    constructor
    · show charsHaveHead ("http://" ++ s1).data _ = true
      have : ("http://" ++ s1).data = "http://".data ++ s1.data := by
        simp [String.data_append]
      rw [this]
      simp [charsHaveHead]
    · show charsHaveTail ("http://" ++ s1).data _ = true
      have : ("http://" ++ s1).data = "http://".data ++ s1.data := by
        simp [String.data_append]
      rw [this]
      exact charsHaveTail_prepend _ _ _ hsuf

/-- C5: the session's timing constants are exactly a write deadline of 2
seconds, a pong-wait of 10 seconds and a ping period of 9 seconds, the ping
period being nine-tenths of the pong-wait window and strictly less than it. -/
theorem sshCmd_timing_constants :
    writeWait = 2 * second ∧
    pongWait = 10 * second ∧
    pingPeriod = 9 * second ∧
    pingPeriod = pongWait * 9 / 10 ∧
    pingPeriod < pongWait := by
  refine ⟨rfl, rfl, ?_, rfl, ?_⟩ <;> norm_num [pingPeriod, pongWait, second]

/-- C6: before the request path is appended, the configured server address is
normalized by appending a "/" when missing and prepending "http://" whenever
the address does not already start with "http"; the result always starts with
"http" and ends with "/". -/
theorem sshCmd_server_normalization (server : String) :
    normalizeServer server =
      (if goHasPre (if goHasSuf server "/" then server else server ++ "/") "http"
       then (if goHasSuf server "/" then server else server ++ "/")
       else "http://" ++ (if goHasSuf server "/" then server else server ++ "/")) ∧
    goHasPre (normalizeServer server) "http" = true ∧
    goHasSuf (normalizeServer server) "/" = true := by
  refine ⟨?_, normalizeServer_spec server⟩
  unfold normalizeServer
  by_cases h1 : goHasSuf server "/" = true <;>
    by_cases h2 : goHasPre (if goHasSuf server "/" then server else server ++ "/") "http" = true <;>
      simp [h1] at h2 ⊢ <;> simp [h2]

/-! ### Data model of the session flow (src/main.go lines 87-178)

The body of the `ssh` command's `Run` closure is embedded as a pure function
from an environment of external outcomes to the list of observable events it
produces, in order.  Go `defer` is an explicitly threaded LIFO stack of
cleanup events appended on every exit path (a Go `panic` also runs the defers
registered so far). -/

/-- Terminal geometry: columns and rows in character cells. -/
structure TerminalGeometry where
  cols : Nat
  rows : Nat
deriving DecidableEq, Repr

/-- Frames the client writes to the websocket. -/
inductive Frame where
  | resize (g : TerminalGeometry)
  | data (bytes : List Nat)
  | ping
deriving DecidableEq, Repr

/-- An HTTP response as observed by the client: status code and headers. -/
structure HttpResponse where
  statusCode : Nat
  headers : List (String × String)
deriving DecidableEq, Repr

/-- ASCII lower-casing, for Go's case-insensitive header lookup. -/
def asciiLower (c : Char) : Char :=
  if 'A' ≤ c ∧ c ≤ 'Z' then Char.ofNat (c.toNat + 32) else c

/-- ASCII case-insensitive string equality. -/
def eqCaseless (a b : String) : Bool :=
  a.data.map asciiLower == b.data.map asciiLower

/-- Go `http.Header.Get(key)`: case-insensitive lookup, `""` when absent. -/
def headerGet (hs : List (String × String)) (key : String) : String :=
  match hs.find? (fun p => eqCaseless p.1 key) with
  | some p => p.2
  | none => ""

/-- Go `resp.Location()` at the external boundary: the `Location` header when
present (`none` models the `http.ErrNoLocation` error, in which case the
returned URL pointer is nil). -/
def respLocation (r : HttpResponse) : Option String :=
  match r.headers.find? (fun p => eqCaseless p.1 "Location") with
  | some p => some p.2
  | none => none

/-- An outbound HTTP request. -/
structure Request where
  method : String
  url : String
  headers : List (String × String)
  body : Option (List Nat)
deriving DecidableEq, Repr

/-- Redirect handling of an `http.Client`. -/
inductive RedirectPolicy where
  | followRedirects
  | useLastResponse
deriving DecidableEq, Repr

/-- The client built at lines 115-118: its `CheckRedirect` returns
`http.ErrUseLastResponse`, so redirects are not auto-followed. -/
def sshClientPolicy : RedirectPolicy := RedirectPolicy.useLastResponse

/-- The session request built at lines 119-125: `POST` to the session path,
`Authorization: token` header, nil body. -/
def sessionRequest (server machine token : String) : Request :=
  { method := "POST"
    url := sessionPath server machine
    headers := [("Authorization", token)]
    body := none }

/-- Result of `websocket.DefaultDialer.Dial`: optional connection, optional
HTTP response of the handshake, optional error. -/
structure DialResult where
  conn : Option Nat
  resp : Option HttpResponse
  err : Option String
deriving DecidableEq, Repr

/-- Observable events of one run of the `ssh` command. -/
inductive Event where
  | print (msg : String)
  | httpRequest (req : Request) (policy : RedirectPolicy)
  | bodyRead
  | dialAttempt (url : String) (headers : List (String × String))
  | rawModeOn
  | sockWrite (f : Frame)
  | tasksStarted
  | waitShutdown
  | termReset
  | sockClose
  | bodyClose
  | panicked
deriving DecidableEq, Repr

/-- External outcomes the run depends on. -/
structure Env where
  /-- `setMistContext()`: `some e` is an error. -/
  setMistContext : Option String
  /-- `getServer()`. -/
  getServer : Except String String
  /-- `getToken()`. -/
  getToken : Except String String
  /-- `client.Do(req)`. -/
  httpDo : Request → Except String HttpResponse
  /-- `ioutil.ReadAll(resp.Body)`: `some e` is an error. -/
  readBody : Option String
  /-- `websocket.DefaultDialer.Dial(url, headers)`. -/
  dial : String → List (String × String) → DialResult
  /-- `current.SetRaw()`: `some e` is an error. -/
  setRawErr : Option String
  /-- Terminal geometry sampled by `updateTerminalSize` at session start. -/
  geometry : TerminalGeometry
  /-- Write outcome of the initial resize frame: `some e` is an error. -/
  initialResizeErr : Option String

/-- Lines 142-146: the websocket dial and its one-shot retry.
```go
c, resp, err := websocket.DefaultDialer.Dial(location, http.Header{"Authorization": []string{token}})
if resp != nil && resp.StatusCode == 302 {
    u, _ := resp.Location()
    c, resp, err = websocket.DefaultDialer.Dial(u.String(), http.Header{"Authorization": []string{token}})
}
```
Returns the dial events emitted and the final `DialResult`; `none` models the
nil-pointer dereference of `u.String()` when the 302 response carries no
`Location` header (`resp.Location()`'s error is discarded with `_`). -/
def dialWithRetry (dial : String → List (String × String) → DialResult)
    (location : String) (hdr : List (String × String)) :
    List Event × Option DialResult :=
  let d1 := dial location hdr
  match d1.resp with
  | some r =>
    if r.statusCode == 302 then
      match respLocation r with
      | none => ([Event.dialAttempt location hdr, Event.panicked], none)
      | some u => ([Event.dialAttempt location hdr, Event.dialAttempt u hdr], some (dial u hdr))
    else ([Event.dialAttempt location hdr], some d1)
  | none => ([Event.dialAttempt location hdr], some d1)

/-- Lines 151-177, after a successful dial: register `defer c.Close()`, enter
raw mode (`panic` on failure), register `defer current.Reset()`, send the
initial resize frame via `updateTerminalSize` (return on failure), start the
four goroutines, block on `<-done`.  `defers` is the cleanup stack registered
so far, head first. -/
def afterConnect (env : Env) (defers : List Event) : List Event :=
  let defers := Event.sockClose :: defers
  match env.setRawErr with
  | some _ => Event.panicked :: defers
  | none =>
    let defers := Event.termReset :: defers
    match env.initialResizeErr with
    | some e => Event.rawModeOn :: Event.print e :: defers
    | none =>
      Event.rawModeOn :: Event.sockWrite (Frame.resize env.geometry) ::
        Event.tasksStarted :: Event.waitShutdown :: defers

/-- The whole `Run` closure of the `ssh` command (lines 87-178) as a pure
function from external outcomes to its event trace. -/
def sshRun (env : Env) (machine : String) : List Event :=
  match env.setMistContext with
  | some e => [Event.print ("Cannot set context " ++ e ++ "\n")]
  | none =>
  match env.getServer with
  | Except.error e => [Event.print e]
  | Except.ok server =>
  match env.getToken with
  | Except.error e => [Event.print e]
  | Except.ok token =>
  let req := sessionRequest server machine token
  match env.httpDo req with
  | Except.error e => [Event.httpRequest req sshClientPolicy, Event.print e]
  | Except.ok resp =>
    let defers := [Event.bodyClose]
    match env.readBody with
    | some e => Event.httpRequest req sshClientPolicy :: Event.print e :: defers
    | none =>
      let location := headerGet resp.headers "location"
      let hdr := [("Authorization", token)]
      match dialWithRetry env.dial location hdr with
      | (ev, none) =>
          Event.httpRequest req sshClientPolicy :: Event.bodyRead :: ev ++ defers
      | (ev, some d) =>
        match d.err with
        | some e =>
            Event.httpRequest req sshClientPolicy :: Event.bodyRead :: ev ++ Event.print e :: defers
        | none =>
            Event.httpRequest req sshClientPolicy :: Event.bodyRead :: ev ++ afterConnect env defers

/-! ### Helper lemmas about the embedded session flow -/

/-- The dial step emits one or two `dialAttempt` events, possibly followed by
the nil-dereference panic; nothing else. -/
theorem dialWithRetry_fst_shape (dial : String → List (String × String) → DialResult)
    (loc : String) (hdr : List (String × String)) :
    (∃ u, (dialWithRetry dial loc hdr).1 =
        [Event.dialAttempt loc hdr, Event.dialAttempt u hdr]) ∨
    (dialWithRetry dial loc hdr).1 = [Event.dialAttempt loc hdr, Event.panicked] ∨
    (dialWithRetry dial loc hdr).1 = [Event.dialAttempt loc hdr] := by
  unfold dialWithRetry
  cases hresp : (dial loc hdr).resp with
  | none => right; right; simp [hresp]
  | some r =>
    by_cases h302 : r.statusCode = 302
    · cases hloc : respLocation r with
      | none => right; left; simp [hresp, h302, hloc]
      | some u => left; exact ⟨u, by simp [hresp, h302, hloc]⟩
    · right; right; simp [hresp, h302]

/-- Terminal- and socket-lifecycle events never occur among the dial events. -/
theorem dialWithRetry_fst_mem (dial : String → List (String × String) → DialResult)
    (loc : String) (hdr : List (String × String)) (x : Event)
    (hx : x ∈ (dialWithRetry dial loc hdr).1) :
    (∃ u h, x = Event.dialAttempt u h) ∨ x = Event.panicked := by
  rcases dialWithRetry_fst_shape dial loc hdr with ⟨u, hs⟩ | hs | hs <;>
    rw [hs] at hx <;> simp at hx
  · rcases hx with h | h
    · exact Or.inl ⟨loc, hdr, h⟩
    · exact Or.inl ⟨u, hdr, h⟩
  · rcases hx with h | h
    · exact Or.inl ⟨loc, hdr, h⟩
    · exact Or.inr h
  · exact Or.inl ⟨loc, hdr, hx⟩

/-- C3: on every exit path of the session routine reached after raw mode has
been entered, the terminal is restored to cooked mode before the command
returns: whenever the trace contains `rawModeOn`, a `termReset` occurs after
it (the two-event list is an ordered sublist of the trace). -/
theorem sshCmd_raw_mode_restored (env : Env) (machine : String)
    (h : Event.rawModeOn ∈ sshRun env machine) :
    List.Sublist [Event.rawModeOn, Event.termReset] (sshRun env machine) := by
  unfold sshRun at h ⊢
  cases hc : env.setMistContext with
  | some e => rw [hc] at h; simp at h
  | none =>
  rw [hc] at h
  cases hs : env.getServer with
  | error e => rw [hs] at h; simp at h
  | ok server =>
  rw [hs] at h
  cases ht : env.getToken with
  | error e => rw [ht] at h; simp at h
  | ok token =>
  rw [ht] at h
  dsimp only at h ⊢
  cases hdo : env.httpDo (sessionRequest server machine token) with
  | error e => rw [hdo] at h; simp at h
  | ok resp =>
  rw [hdo] at h
  dsimp only at h ⊢
  cases hrb : env.readBody with
  | some e => rw [hrb] at h; simp at h
  | none =>
  rw [hrb] at h
  dsimp only at h ⊢
  cases hd : dialWithRetry env.dial (headerGet resp.headers "location")
      [("Authorization", token)] with
  | mk ev od =>
  have hev : ∀ x ∈ ev, (∃ u hh, x = Event.dialAttempt u hh) ∨ x = Event.panicked := by
    intro x hx
    exact dialWithRetry_fst_mem env.dial (headerGet resp.headers "location")
      [("Authorization", token)] x (by rw [hd]; exact hx)
  have hnoraw : Event.rawModeOn ∉ ev := by
    intro hx
    rcases hev _ hx with ⟨u, hh, habs⟩ | habs <;> exact absurd habs (by simp)
  rw [hd] at h
  cases od with
  | none =>
    exfalso
    simp at h
    exact hnoraw h
  | some d =>
  dsimp only at h ⊢
  cases herr : d.err with
  | some e =>
    exfalso
    rw [herr] at h
    simp at h
    exact hnoraw h
  | none =>
  rw [herr] at h
  dsimp only at h ⊢
  have hlift : List.Sublist (afterConnect env [Event.bodyClose])
      (Event.httpRequest (sessionRequest server machine token) sshClientPolicy ::
        Event.bodyRead :: ev ++ afterConnect env [Event.bodyClose]) := by
    have heq : Event.httpRequest (sessionRequest server machine token) sshClientPolicy ::
        Event.bodyRead :: ev ++ afterConnect env [Event.bodyClose] =
        (Event.httpRequest (sessionRequest server machine token) sshClientPolicy ::
          Event.bodyRead :: ev) ++ afterConnect env [Event.bodyClose] := by
      simp
    rw [heq]
    exact List.sublist_append_right _ _
  refine List.Sublist.trans ?_ hlift
  unfold afterConnect
  cases hraw : env.setRawErr with
  | some e =>
    exfalso
    unfold afterConnect at h
    rw [hraw] at h
    simp at h
    exact hnoraw h
  | none =>
  cases hres : env.initialResizeErr with
  | some e =>
    dsimp only
    exact List.cons_sublist_cons.mpr
      (List.Sublist.cons _ (List.cons_sublist_cons.mpr (List.nil_sublist _)))
  | none =>
    dsimp only
    exact List.cons_sublist_cons.mpr
      (List.Sublist.cons _ (List.Sublist.cons _ (List.Sublist.cons _
        (List.cons_sublist_cons.mpr (List.nil_sublist _)))))

/-- A concrete all-success environment: the handshake returns a redirect
whose `Location` names the websocket endpoint, the dial succeeds at once,
raw mode and the initial resize write succeed. -/
def okEnv : Env :=
  { setMistContext := none
    getServer := Except.ok "https://mist.example"
    getToken := Except.ok "tok123"
    httpDo := fun _ => Except.ok
      { statusCode := 303, headers := [("Location", "ws://mist.example/ws/1")] }
    readBody := none
    dial := fun _ _ =>
      { conn := some 1, resp := some { statusCode := 101, headers := [] }, err := none }
    setRawErr := none
    geometry := { cols := 80, rows := 24 }
    initialResizeErr := none }

theorem sshCmd_raw_mode_restored_witness :
    List.Sublist [Event.rawModeOn, Event.termReset] (sshRun okEnv "m1") :=
  sshCmd_raw_mode_restored okEnv "m1" (by decide)

/-- Exhaustive case analysis of `afterConnect`: panic on `SetRaw` failure,
abort on initial-resize failure, or the full session. -/
theorem afterConnect_shape (env : Env) (defers : List Event) :
    (∃ e, env.setRawErr = some e ∧
      afterConnect env defers = Event.panicked :: Event.sockClose :: defers) ∨
    (∃ e, env.setRawErr = none ∧ env.initialResizeErr = some e ∧
      afterConnect env defers =
        Event.rawModeOn :: Event.print e :: Event.termReset :: Event.sockClose :: defers) ∨
    (env.setRawErr = none ∧ env.initialResizeErr = none ∧
      afterConnect env defers =
        Event.rawModeOn :: Event.sockWrite (Frame.resize env.geometry) ::
          Event.tasksStarted :: Event.waitShutdown ::
          Event.termReset :: Event.sockClose :: defers) := by
  cases hr : env.setRawErr with
  | some e => exact Or.inl ⟨e, rfl, by unfold afterConnect; rw [hr]⟩
  | none =>
    cases hi : env.initialResizeErr with
    | some e =>
      exact Or.inr (Or.inl ⟨e, rfl, rfl, by unfold afterConnect; rw [hr]; dsimp only; rw [hi]⟩)
    | none =>
      exact Or.inr (Or.inr ⟨rfl, rfl, by unfold afterConnect; rw [hr]; dsimp only; rw [hi]⟩)

/-- Exhaustive case analysis of one `ssh` run: each exit path of the command
with the external outcomes that select it and the exact trace it produces. -/
theorem sshRun_shape (env : Env) (machine : String) :
    (∃ e, env.setMistContext = some e ∧
      sshRun env machine = [Event.print ("Cannot set context " ++ e ++ "\n")]) ∨
    (∃ e, env.setMistContext = none ∧ env.getServer = Except.error e ∧
      sshRun env machine = [Event.print e]) ∨
    (∃ server e, env.setMistContext = none ∧ env.getServer = Except.ok server ∧
      env.getToken = Except.error e ∧ sshRun env machine = [Event.print e]) ∨
    (∃ server token e, env.setMistContext = none ∧ env.getServer = Except.ok server ∧
      env.getToken = Except.ok token ∧
      env.httpDo (sessionRequest server machine token) = Except.error e ∧
      sshRun env machine =
        [Event.httpRequest (sessionRequest server machine token) sshClientPolicy,
         Event.print e]) ∨
    (∃ server token resp e, env.setMistContext = none ∧ env.getServer = Except.ok server ∧
      env.getToken = Except.ok token ∧
      env.httpDo (sessionRequest server machine token) = Except.ok resp ∧
      env.readBody = some e ∧
      sshRun env machine =
        [Event.httpRequest (sessionRequest server machine token) sshClientPolicy,
         Event.print e, Event.bodyClose]) ∨
    (∃ server token resp ev, env.setMistContext = none ∧ env.getServer = Except.ok server ∧
      env.getToken = Except.ok token ∧
      env.httpDo (sessionRequest server machine token) = Except.ok resp ∧
      env.readBody = none ∧
      dialWithRetry env.dial (headerGet resp.headers "location")
        [("Authorization", token)] = (ev, none) ∧
      sshRun env machine =
        Event.httpRequest (sessionRequest server machine token) sshClientPolicy ::
          Event.bodyRead :: ev ++ [Event.bodyClose]) ∨
    (∃ server token resp ev d e, env.setMistContext = none ∧
      env.getServer = Except.ok server ∧
      env.getToken = Except.ok token ∧
      env.httpDo (sessionRequest server machine token) = Except.ok resp ∧
      env.readBody = none ∧
      dialWithRetry env.dial (headerGet resp.headers "location")
        [("Authorization", token)] = (ev, some d) ∧
      d.err = some e ∧
      sshRun env machine =
        Event.httpRequest (sessionRequest server machine token) sshClientPolicy ::
          Event.bodyRead :: ev ++ [Event.print e, Event.bodyClose]) ∨
    (∃ server token resp ev d, env.setMistContext = none ∧
      env.getServer = Except.ok server ∧
      env.getToken = Except.ok token ∧
      env.httpDo (sessionRequest server machine token) = Except.ok resp ∧
      env.readBody = none ∧
      dialWithRetry env.dial (headerGet resp.headers "location")
        [("Authorization", token)] = (ev, some d) ∧
      d.err = none ∧
      sshRun env machine =
        Event.httpRequest (sessionRequest server machine token) sshClientPolicy ::
          Event.bodyRead :: ev ++ afterConnect env [Event.bodyClose]) := by
  cases hc : env.setMistContext with
  | some e => exact Or.inl ⟨e, rfl, by unfold sshRun; rw [hc]⟩
  | none =>
  cases hs : env.getServer with
  | error e =>
    exact Or.inr (Or.inl ⟨e, rfl, rfl, by unfold sshRun; rw [hc]; dsimp only; rw [hs]⟩)
  | ok server =>
  cases ht : env.getToken with
  | error e =>
    exact Or.inr (Or.inr (Or.inl ⟨server, e, rfl, rfl, rfl, by
      unfold sshRun; rw [hc]; dsimp only; rw [hs]; dsimp only; rw [ht]⟩))
  | ok token =>
  cases hdo : env.httpDo (sessionRequest server machine token) with
  | error e =>
    exact Or.inr (Or.inr (Or.inr (Or.inl ⟨server, token, e, rfl, rfl, rfl, hdo, by
      unfold sshRun; rw [hc]; dsimp only; rw [hs]; dsimp only; rw [ht]; dsimp only;
      rw [hdo]⟩)))
  | ok resp =>
  cases hrb : env.readBody with
  | some e =>
    exact Or.inr (Or.inr (Or.inr (Or.inr (Or.inl ⟨server, token, resp, e, rfl, rfl, rfl,
      hdo, rfl, by
        unfold sshRun; rw [hc]; dsimp only; rw [hs]; dsimp only; rw [ht]; dsimp only;
        rw [hdo]; dsimp only; rw [hrb]⟩))))
  | none =>
  cases hd : dialWithRetry env.dial (headerGet resp.headers "location")
      [("Authorization", token)] with
  | mk ev od =>
  cases od with
  | none =>
    refine Or.inr (Or.inr (Or.inr (Or.inr (Or.inr (Or.inl
      ⟨server, token, resp, ev, rfl, rfl, rfl, hdo, rfl, hd, ?_⟩)))))
    unfold sshRun; rw [hc]; dsimp only; rw [hs]; dsimp only; rw [ht]; dsimp only
    rw [hdo]; dsimp only; rw [hrb]; dsimp only; rw [hd]
  | some d =>
  cases herr : d.err with
  | some e =>
    refine Or.inr (Or.inr (Or.inr (Or.inr (Or.inr (Or.inr (Or.inl
      ⟨server, token, resp, ev, d, e, rfl, rfl, rfl, hdo, rfl, hd, herr, ?_⟩))))))
    unfold sshRun; rw [hc]; dsimp only; rw [hs]; dsimp only; rw [ht]; dsimp only
    rw [hdo]; dsimp only; rw [hrb]; dsimp only; rw [hd]; dsimp only; rw [herr]
  | none =>
    refine Or.inr (Or.inr (Or.inr (Or.inr (Or.inr (Or.inr (Or.inr
      ⟨server, token, resp, ev, d, rfl, rfl, rfl, hdo, rfl, hd, herr, ?_⟩))))))
    unfold sshRun; rw [hc]; dsimp only; rw [hs]; dsimp only; rw [ht]; dsimp only
    rw [hdo]; dsimp only; rw [hrb]; dsimp only; rw [hd]; dsimp only; rw [herr]

/-- Membership form of `dialWithRetry_fst_mem` keyed by a result equation. -/
theorem dial_ev_mem {dial : String → List (String × String) → DialResult}
    {loc : String} {hdr : List (String × String)} {ev : List Event}
    {od : Option DialResult} (hd : dialWithRetry dial loc hdr = (ev, od))
    {x : Event} (hx : x ∈ ev) :
    (∃ u hh, x = Event.dialAttempt u hh) ∨ x = Event.panicked :=
  dialWithRetry_fst_mem dial loc hdr x (by rw [hd]; exact hx)

/-- C2: whenever the concurrent writer tasks are started, the trace splits as
`pre ++ [initial resize write, tasksStarted] ++ post` with no socket write in
`pre` — the very first socket write is the Resize frame with the geometry
sampled at session start, immediately before the tasks start; and when the
initial resize write fails the tasks are never started. -/
theorem sshCmd_initial_resize_first (env : Env) (machine : String) :
    (Event.tasksStarted ∈ sshRun env machine →
      ∃ pre post, sshRun env machine =
          pre ++ Event.sockWrite (Frame.resize env.geometry) ::
            Event.tasksStarted :: post ∧
        ∀ f, Event.sockWrite f ∉ pre) ∧
    (∀ e, env.initialResizeErr = some e →
      Event.tasksStarted ∉ sshRun env machine) := by
  constructor
  · intro hts
    rcases sshRun_shape env machine with
      ⟨e, _, heq⟩ | ⟨e, _, _, heq⟩ | ⟨server, e, _, _, _, heq⟩ |
      ⟨server, token, e, _, _, _, _, heq⟩ |
      ⟨server, token, resp, e, _, _, _, _, _, heq⟩ |
      ⟨server, token, resp, ev, _, _, _, _, _, hd, heq⟩ |
      ⟨server, token, resp, ev, d, e, _, _, _, _, _, hd, _, heq⟩ |
      ⟨server, token, resp, ev, d, _, _, _, _, _, hd, _, heq⟩
    · rw [heq] at hts; simp at hts
    · rw [heq] at hts; simp at hts
    · rw [heq] at hts; simp at hts
    · rw [heq] at hts; simp at hts
    · rw [heq] at hts; simp at hts
    · exfalso; rw [heq] at hts; simp at hts
      rcases dial_ev_mem hd hts with ⟨u, hh, hx⟩ | hx <;> simp at hx
    · exfalso; rw [heq] at hts; simp at hts
      rcases dial_ev_mem hd hts with ⟨u, hh, hx⟩ | hx <;> simp at hx
    · rcases afterConnect_shape env [Event.bodyClose] with
        ⟨e, hraw, hafter⟩ | ⟨e, hraw, hres, hafter⟩ | ⟨hraw, hres, hafter⟩
      · exfalso; rw [heq, hafter] at hts; simp at hts
        rcases dial_ev_mem hd hts with ⟨u, hh, hx⟩ | hx <;> simp at hx
      · exfalso; rw [heq, hafter] at hts; simp at hts
        rcases dial_ev_mem hd hts with ⟨u, hh, hx⟩ | hx <;> simp at hx
      · refine ⟨Event.httpRequest (sessionRequest server machine token) sshClientPolicy ::
            Event.bodyRead :: ev ++ [Event.rawModeOn],
          [Event.waitShutdown, Event.termReset, Event.sockClose, Event.bodyClose],
          ?_, ?_⟩
        · rw [heq, hafter]; simp
        · intro f hf
          simp at hf
          rcases dial_ev_mem hd hf with ⟨u, hh, hx⟩ | hx <;> simp at hx
  · intro e0 hres0 hts
    rcases sshRun_shape env machine with
      ⟨e, _, heq⟩ | ⟨e, _, _, heq⟩ | ⟨server, e, _, _, _, heq⟩ |
      ⟨server, token, e, _, _, _, _, heq⟩ |
      ⟨server, token, resp, e, _, _, _, _, _, heq⟩ |
      ⟨server, token, resp, ev, _, _, _, _, _, hd, heq⟩ |
      ⟨server, token, resp, ev, d, e, _, _, _, _, _, hd, _, heq⟩ |
      ⟨server, token, resp, ev, d, _, _, _, _, _, hd, _, heq⟩
    · rw [heq] at hts; simp at hts
    · rw [heq] at hts; simp at hts
    · rw [heq] at hts; simp at hts
    · rw [heq] at hts; simp at hts
    · rw [heq] at hts; simp at hts
    · rw [heq] at hts; simp at hts
      rcases dial_ev_mem hd hts with ⟨u, hh, hx⟩ | hx <;> simp at hx
    · rw [heq] at hts; simp at hts
      rcases dial_ev_mem hd hts with ⟨u, hh, hx⟩ | hx <;> simp at hx
    · rcases afterConnect_shape env [Event.bodyClose] with
        ⟨e, hraw, hafter⟩ | ⟨e, hraw, hres, hafter⟩ | ⟨hraw, hres, hafter⟩
      · rw [heq, hafter] at hts; simp at hts
        rcases dial_ev_mem hd hts with ⟨u, hh, hx⟩ | hx <;> simp at hx
      · rw [heq, hafter] at hts; simp at hts
        rcases dial_ev_mem hd hts with ⟨u, hh, hx⟩ | hx <;> simp at hx
      · rw [hres0] at hres; exact Option.noConfusion hres

/-- An environment identical to `okEnv` except that the initial resize write
fails. -/
def resizeFailEnv : Env :=
  { okEnv with initialResizeErr := some "write: broken pipe" }

theorem sshCmd_initial_resize_first_witness :
    (∃ pre post, sshRun okEnv "m1" =
        pre ++ Event.sockWrite (Frame.resize okEnv.geometry) ::
          Event.tasksStarted :: post ∧
      ∀ f, Event.sockWrite f ∉ pre) ∧
    Event.tasksStarted ∉ sshRun resizeFailEnv "m1" :=
  ⟨(sshCmd_initial_resize_first okEnv "m1").1 (by decide),
   (sshCmd_initial_resize_first resizeFailEnv "m1").2 "write: broken pipe" rfl⟩

/-- C4: each pre-session error — missing token, network failure of the
session request, failure reading the response body, or a failed websocket
upgrade (including a redirect that cannot be followed) — makes the command
print the error and return before raw mode is ever entered: the trace
reports the error and contains no terminal-state event. -/
theorem sshCmd_presession_errors (env : Env) (machine : String) :
    (∀ server e, env.setMistContext = none → env.getServer = Except.ok server →
      env.getToken = Except.error e →
      sshRun env machine = [Event.print e]) ∧
    (∀ server token e, env.setMistContext = none → env.getServer = Except.ok server →
      env.getToken = Except.ok token →
      env.httpDo (sessionRequest server machine token) = Except.error e →
      sshRun env machine =
        [Event.httpRequest (sessionRequest server machine token) sshClientPolicy,
         Event.print e]) ∧
    (∀ server token resp e, env.setMistContext = none →
      env.getServer = Except.ok server → env.getToken = Except.ok token →
      env.httpDo (sessionRequest server machine token) = Except.ok resp →
      env.readBody = some e →
      sshRun env machine =
        [Event.httpRequest (sessionRequest server machine token) sshClientPolicy,
         Event.print e, Event.bodyClose]) ∧
    (∀ server token resp ev d e, env.setMistContext = none →
      env.getServer = Except.ok server → env.getToken = Except.ok token →
      env.httpDo (sessionRequest server machine token) = Except.ok resp →
      env.readBody = none →
      dialWithRetry env.dial (headerGet resp.headers "location")
        [("Authorization", token)] = (ev, some d) →
      d.err = some e →
      Event.print e ∈ sshRun env machine ∧
      Event.rawModeOn ∉ sshRun env machine ∧
      Event.termReset ∉ sshRun env machine) := by
  refine ⟨?_, ?_, ?_, ?_⟩
  · intro server e h1 h2 h3
    unfold sshRun; rw [h1]; dsimp only; rw [h2]; dsimp only; rw [h3]
  · intro server token e h1 h2 h3 h4
    unfold sshRun; rw [h1]; dsimp only; rw [h2]; dsimp only; rw [h3]; dsimp only
    rw [h4]
  · intro server token resp e h1 h2 h3 h4 h5
    unfold sshRun; rw [h1]; dsimp only; rw [h2]; dsimp only; rw [h3]; dsimp only
    rw [h4]; dsimp only; rw [h5]
  · intro server token resp ev d e h1 h2 h3 h4 h5 hd herr
    have heq : sshRun env machine =
        Event.httpRequest (sessionRequest server machine token) sshClientPolicy ::
          Event.bodyRead :: ev ++ [Event.print e, Event.bodyClose] := by
      unfold sshRun; rw [h1]; dsimp only; rw [h2]; dsimp only; rw [h3]; dsimp only
      rw [h4]; dsimp only; rw [h5]; dsimp only; rw [hd]; dsimp only; rw [herr]
    refine ⟨?_, ?_, ?_⟩
    · rw [heq]; simp
    · intro hx
      rw [heq] at hx; simp at hx
      rcases dial_ev_mem hd hx with ⟨u, hh, h⟩ | h <;> simp at h
    · intro hx
      rw [heq] at hx; simp at hx
      rcases dial_ev_mem hd hx with ⟨u, hh, h⟩ | h <;> simp at h

/-- `okEnv` with a missing API token. -/
def tokenErrEnv : Env := { okEnv with getToken := Except.error "no token configured" }

/-- `okEnv` whose session request fails at the network level. -/
def httpErrEnv : Env := { okEnv with httpDo := fun _ => Except.error "connection refused" }

/-- `okEnv` whose response-body read fails. -/
def readErrEnv : Env := { okEnv with readBody := some "unexpected EOF" }

/-- `okEnv` whose websocket dial fails without any handshake response. -/
def dialErrEnv : Env :=
  { okEnv with dial := fun _ _ => { conn := none, resp := none, err := some "bad handshake" } }

theorem sshCmd_presession_errors_witness :
    sshRun tokenErrEnv "m1" = [Event.print "no token configured"] ∧
    sshRun httpErrEnv "m1" =
      [Event.httpRequest (sessionRequest "https://mist.example" "m1" "tok123")
        sshClientPolicy, Event.print "connection refused"] ∧
    sshRun readErrEnv "m1" =
      [Event.httpRequest (sessionRequest "https://mist.example" "m1" "tok123")
        sshClientPolicy, Event.print "unexpected EOF", Event.bodyClose] ∧
    (Event.print "bad handshake" ∈ sshRun dialErrEnv "m1" ∧
      Event.rawModeOn ∉ sshRun dialErrEnv "m1" ∧
      Event.termReset ∉ sshRun dialErrEnv "m1") :=
  ⟨(sshCmd_presession_errors tokenErrEnv "m1").1 "https://mist.example"
      "no token configured" rfl rfl rfl,
   (sshCmd_presession_errors httpErrEnv "m1").2.1 "https://mist.example" "tok123"
      "connection refused" rfl rfl rfl rfl,
   (sshCmd_presession_errors readErrEnv "m1").2.2.1 "https://mist.example" "tok123"
      { statusCode := 303, headers := [("Location", "ws://mist.example/ws/1")] }
      "unexpected EOF" rfl rfl rfl rfl rfl,
   (sshCmd_presession_errors dialErrEnv "m1").2.2.2 "https://mist.example" "tok123"
      { statusCode := 303, headers := [("Location", "ws://mist.example/ws/1")] }
      [Event.dialAttempt "ws://mist.example/ws/1" [("Authorization", "tok123")]]
      { conn := none, resp := none, err := some "bad handshake" }
      "bad handshake" rfl rfl rfl rfl rfl (by decide) rfl⟩

/-- C7: the session request is a POST to
`{server}api/v2/machines/{machine}/actions/ssh` with the bearer token in an
`Authorization` header and no body, issued on a client whose
redirect-following is disabled so the redirect is observed directly; the
response body is read and discarded, and the websocket endpoint dialed first
is exactly the value of the response's `Location` header. -/
theorem sshCmd_session_request (env : Env) (machine server token : String)
    (resp : HttpResponse)
    (h1 : env.setMistContext = none) (h2 : env.getServer = Except.ok server)
    (h3 : env.getToken = Except.ok token)
    (h4 : env.httpDo (sessionRequest server machine token) = Except.ok resp)
    (h5 : env.readBody = none) :
    sessionRequest server machine token =
      { method := "POST"
        url := normalizeServer server ++ "api/v2/machines/" ++ machine ++ "/actions/ssh"
        headers := [("Authorization", token)]
        body := none } ∧
    sshClientPolicy = RedirectPolicy.useLastResponse ∧
    ∃ rest, sshRun env machine =
      Event.httpRequest (sessionRequest server machine token) sshClientPolicy ::
        Event.bodyRead ::
        Event.dialAttempt (headerGet resp.headers "location")
          [("Authorization", token)] :: rest := by
  refine ⟨rfl, rfl, ?_⟩
  cases hd : dialWithRetry env.dial (headerGet resp.headers "location")
      [("Authorization", token)] with
  | mk ev od =>
  have htail : ∃ tail, sshRun env machine =
      Event.httpRequest (sessionRequest server machine token) sshClientPolicy ::
        Event.bodyRead :: ev ++ tail := by
    cases od with
    | none =>
      exact ⟨[Event.bodyClose], by
        unfold sshRun; rw [h1]; dsimp only; rw [h2]; dsimp only; rw [h3]; dsimp only
        rw [h4]; dsimp only; rw [h5]; dsimp only; rw [hd]⟩
    | some d =>
      cases herr : d.err with
      | some e =>
        exact ⟨[Event.print e, Event.bodyClose], by
          unfold sshRun; rw [h1]; dsimp only; rw [h2]; dsimp only; rw [h3]; dsimp only
          rw [h4]; dsimp only; rw [h5]; dsimp only; rw [hd]; dsimp only; rw [herr]⟩
      | none =>
        exact ⟨afterConnect env [Event.bodyClose], by
          unfold sshRun; rw [h1]; dsimp only; rw [h2]; dsimp only; rw [h3]; dsimp only
          rw [h4]; dsimp only; rw [h5]; dsimp only; rw [hd]; dsimp only; rw [herr]⟩
  obtain ⟨tail, htr⟩ := htail
  have hev : ∃ evrest, ev = Event.dialAttempt (headerGet resp.headers "location")
      [("Authorization", token)] :: evrest := by
    rcases dialWithRetry_fst_shape env.dial (headerGet resp.headers "location")
        [("Authorization", token)] with ⟨u, hs⟩ | hs | hs <;> rw [hd] at hs <;>
      exact ⟨_, hs⟩
  obtain ⟨evrest, hevr⟩ := hev
  exact ⟨evrest ++ tail, by rw [htr, hevr]; simp⟩

theorem sshCmd_session_request_witness :
    sessionRequest "https://mist.example" "m1" "tok123" =
      { method := "POST"
        url := normalizeServer "https://mist.example" ++ "api/v2/machines/" ++
          "m1" ++ "/actions/ssh"
        headers := [("Authorization", "tok123")]
        body := none } ∧
    sshClientPolicy = RedirectPolicy.useLastResponse ∧
    ∃ rest, sshRun okEnv "m1" =
      Event.httpRequest (sessionRequest "https://mist.example" "m1" "tok123")
          sshClientPolicy ::
        Event.bodyRead ::
        Event.dialAttempt
          (headerGet [("Location", "ws://mist.example/ws/1")] "location")
          [("Authorization", "tok123")] :: rest :=
  sshCmd_session_request okEnv "m1" "https://mist.example" "tok123"
    { statusCode := 303, headers := [("Location", "ws://mist.example/ws/1")] }
    rfl rfl rfl rfl rfl

/-- Recognizer for dial-attempt events. -/
def Event.isDial : Event → Bool
  | Event.dialAttempt _ _ => true
  | _ => false

/-- Number of websocket dial attempts in a trace. -/
def dialCount (t : List Event) : Nat := t.countP Event.isDial

/-- An environment whose websocket upgrade yields a 301 redirect response
with a usable Location, together with the dial error. -/
def redirect301Env : Env :=
  { okEnv with dial := fun _ _ =>
      { conn := none
        resp := some { statusCode := 301
                       headers := [("Location", "ws://mist.example/ws/2")] }
        err := some "websocket: bad handshake" } }

/-- C1 counterexample: the upgrade attempt yields a redirect response
(status 301) carrying a usable new location, yet the client does not retry —
only one dial attempt is made and the new location is never dialed, so the
claim as stated (any redirect response is retried once) is false. -/
theorem sshCmd_upgrade_redirect_301_counterexample :
    (redirect301Env.dial "ws://mist.example/ws/1" [("Authorization", "tok123")]).resp =
      some { statusCode := 301
             headers := [("Location", "ws://mist.example/ws/2")] } ∧
    respLocation { statusCode := 301
                   headers := [("Location", "ws://mist.example/ws/2")] } =
      some "ws://mist.example/ws/2" ∧
    dialCount (sshRun redirect301Env "m1") = 1 ∧
    Event.dialAttempt "ws://mist.example/ws/2" [("Authorization", "tok123")] ∉
      sshRun redirect301Env "m1" := by
  refine ⟨rfl, by decide, by decide, by decide⟩

/-- C1 (amended): if the upgrade attempt yields a redirect response with
status exactly 302, the client re-resolves the new location from it and
retries the upgrade exactly once against it with the same Authorization
credentials; the second dial is the last (a further redirect hop is not
followed) and a failing retry makes the session fail before raw mode is
entered. -/
theorem sshCmd_upgrade_redirect_retry (env : Env) (machine server token : String)
    (resp r : HttpResponse) (u : String)
    (h1 : env.setMistContext = none) (h2 : env.getServer = Except.ok server)
    (h3 : env.getToken = Except.ok token)
    (h4 : env.httpDo (sessionRequest server machine token) = Except.ok resp)
    (h5 : env.readBody = none)
    (hr : (env.dial (headerGet resp.headers "location")
        [("Authorization", token)]).resp = some r)
    (h302 : r.statusCode = 302)
    (hloc : respLocation r = some u) :
    dialWithRetry env.dial (headerGet resp.headers "location")
        [("Authorization", token)] =
      ([Event.dialAttempt (headerGet resp.headers "location")
          [("Authorization", token)],
        Event.dialAttempt u [("Authorization", token)]],
       some (env.dial u [("Authorization", token)])) ∧
    (∀ e, (env.dial u [("Authorization", token)]).err = some e →
      sshRun env machine =
        [Event.httpRequest (sessionRequest server machine token) sshClientPolicy,
         Event.bodyRead,
         Event.dialAttempt (headerGet resp.headers "location")
           [("Authorization", token)],
         Event.dialAttempt u [("Authorization", token)],
         Event.print e, Event.bodyClose]) := by
  have hdd : dialWithRetry env.dial (headerGet resp.headers "location")
      [("Authorization", token)] =
      ([Event.dialAttempt (headerGet resp.headers "location")
          [("Authorization", token)],
        Event.dialAttempt u [("Authorization", token)]],
       some (env.dial u [("Authorization", token)])) := by
    unfold dialWithRetry
    simp [hr, h302, hloc]
  refine ⟨hdd, ?_⟩
  intro e he
  unfold sshRun; rw [h1]; dsimp only; rw [h2]; dsimp only; rw [h3]; dsimp only
  rw [h4]; dsimp only; rw [h5]; dsimp only; rw [hdd]; dsimp only; rw [he]; simp

/-- An environment in which every websocket upgrade attempt yields a 302
redirect (first to `/ws/2`, from there to `/ws/3`) and a handshake error. -/
def redirect302Env : Env :=
  { okEnv with dial := fun u _ =>
      if u = "ws://mist.example/ws/1" then
        { conn := none
          resp := some { statusCode := 302
                         headers := [("Location", "ws://mist.example/ws/2")] }
          err := some "websocket: bad handshake" }
      else
        { conn := none
          resp := some { statusCode := 302
                         headers := [("Location", "ws://mist.example/ws/3")] }
          err := some "websocket: bad handshake" } }

theorem sshCmd_upgrade_redirect_retry_witness :
    sshRun redirect302Env "m1" =
      [Event.httpRequest (sessionRequest "https://mist.example" "m1" "tok123")
         sshClientPolicy,
       Event.bodyRead,
       Event.dialAttempt "ws://mist.example/ws/1" [("Authorization", "tok123")],
       Event.dialAttempt "ws://mist.example/ws/2" [("Authorization", "tok123")],
       Event.print "websocket: bad handshake", Event.bodyClose] := by
  have h := (sshCmd_upgrade_redirect_retry redirect302Env "m1" "https://mist.example"
    "tok123"
    { statusCode := 303, headers := [("Location", "ws://mist.example/ws/1")] }
    { statusCode := 302, headers := [("Location", "ws://mist.example/ws/2")] }
    "ws://mist.example/ws/2"
    rfl rfl rfl rfl rfl (by decide) rfl (by decide)).2
    "websocket: bad handshake" (by decide)
  exact h

/-- C9: the one-shot upgrade retry fires only on HTTP status exactly 302:
for any other status of the upgrade response there is no second dial attempt
and the original dial error is reported as a pre-session failure; and on the
retry path the error of resolving the response's Location is discarded, so a
302 response lacking a Location header is not handled as a distinct error
case — it dereferences a nil URL (panic) instead of printing an error. -/
theorem sshCmd_retry_condition (env : Env) (machine server token : String)
    (resp : HttpResponse)
    (h1 : env.setMistContext = none) (h2 : env.getServer = Except.ok server)
    (h3 : env.getToken = Except.ok token)
    (h4 : env.httpDo (sessionRequest server machine token) = Except.ok resp)
    (h5 : env.readBody = none) :
    (∀ r, (env.dial (headerGet resp.headers "location")
        [("Authorization", token)]).resp = some r →
      r.statusCode ≠ 302 →
      dialWithRetry env.dial (headerGet resp.headers "location")
          [("Authorization", token)] =
        ([Event.dialAttempt (headerGet resp.headers "location")
            [("Authorization", token)]],
         some (env.dial (headerGet resp.headers "location")
            [("Authorization", token)])) ∧
      (∀ e, (env.dial (headerGet resp.headers "location")
          [("Authorization", token)]).err = some e →
        sshRun env machine =
          [Event.httpRequest (sessionRequest server machine token) sshClientPolicy,
           Event.bodyRead,
           Event.dialAttempt (headerGet resp.headers "location")
             [("Authorization", token)],
           Event.print e, Event.bodyClose])) ∧
    (∀ r, (env.dial (headerGet resp.headers "location")
        [("Authorization", token)]).resp = some r →
      r.statusCode = 302 → respLocation r = none →
      sshRun env machine =
        [Event.httpRequest (sessionRequest server machine token) sshClientPolicy,
         Event.bodyRead,
         Event.dialAttempt (headerGet resp.headers "location")
           [("Authorization", token)],
         Event.panicked, Event.bodyClose]) := by
  constructor
  · intro r hres hne
    have hdd : dialWithRetry env.dial (headerGet resp.headers "location")
        [("Authorization", token)] =
        ([Event.dialAttempt (headerGet resp.headers "location")
            [("Authorization", token)]],
         some (env.dial (headerGet resp.headers "location")
            [("Authorization", token)])) := by
      unfold dialWithRetry
      simp [hres, hne]
    refine ⟨hdd, ?_⟩
    intro e he
    unfold sshRun; rw [h1]; dsimp only; rw [h2]; dsimp only; rw [h3]; dsimp only
    rw [h4]; dsimp only; rw [h5]; dsimp only; rw [hdd]; dsimp only; rw [he]; simp
  · intro r hres h302 hloc
    have hdd : dialWithRetry env.dial (headerGet resp.headers "location")
        [("Authorization", token)] =
        ([Event.dialAttempt (headerGet resp.headers "location")
            [("Authorization", token)], Event.panicked], none) := by
      unfold dialWithRetry
      simp [hres, h302, hloc]
    unfold sshRun; rw [h1]; dsimp only; rw [h2]; dsimp only; rw [h3]; dsimp only
    rw [h4]; dsimp only; rw [h5]; dsimp only; rw [hdd]; simp

/-- An environment whose websocket upgrade yields a 302 redirect response
carrying no Location header. -/
def redirect302NoLocEnv : Env :=
  { okEnv with dial := fun _ _ =>
      { conn := none
        resp := some { statusCode := 302, headers := [] }
        err := some "websocket: bad handshake" } }

theorem sshCmd_retry_condition_witness :
    sshRun redirect301Env "m1" =
      [Event.httpRequest (sessionRequest "https://mist.example" "m1" "tok123")
         sshClientPolicy,
       Event.bodyRead,
       Event.dialAttempt "ws://mist.example/ws/1" [("Authorization", "tok123")],
       Event.print "websocket: bad handshake", Event.bodyClose] ∧
    sshRun redirect302NoLocEnv "m1" =
      [Event.httpRequest (sessionRequest "https://mist.example" "m1" "tok123")
         sshClientPolicy,
       Event.bodyRead,
       Event.dialAttempt "ws://mist.example/ws/1" [("Authorization", "tok123")],
       Event.panicked, Event.bodyClose] :=
  ⟨((sshCmd_retry_condition redirect301Env "m1" "https://mist.example" "tok123"
      { statusCode := 303, headers := [("Location", "ws://mist.example/ws/1")] }
      rfl rfl rfl rfl rfl).1
      { statusCode := 301, headers := [("Location", "ws://mist.example/ws/2")] }
      rfl (by decide)).2 "websocket: bad handshake" rfl,
   (sshCmd_retry_condition redirect302NoLocEnv "m1" "https://mist.example" "tok123"
      { statusCode := 303, headers := [("Location", "ws://mist.example/ws/1")] }
      rfl rfl rfl rfl rfl).2
      { statusCode := 302, headers := [] } rfl rfl rfl⟩

/-- Modelled from the spec: the bodies of the four goroutines
(`handleTerminalResize`, `readFromRemoteStdout`, `writeToRemoteStdin`,
`sendPingMessages`) that fire the `done` signal are not part of
`src/main.go`; the spec describes ShutdownSignal as "a single-fire broadcast
primitive with no payload" whose firing must be safe and idempotent. -/
structure ShutdownSignal where
  fired : Bool
deriving DecidableEq, Repr

/-- A task reporting a fatal condition fires the signal. -/
def ShutdownSignal.fire (_s : ShutdownSignal) : ShutdownSignal := ⟨true⟩

/-- The top-level waiter (`<-done`) is unblocked exactly when the signal has
fired. -/
def ShutdownSignal.unblocked (s : ShutdownSignal) : Bool := s.fired

/-- `n` tasks racing to fire the signal, one after another. -/
def fireTimes : Nat → ShutdownSignal → ShutdownSignal
  | 0, s => s
  | n + 1, s => fireTimes n s.fire

theorem fireTimes_pos (n : Nat) (s : ShutdownSignal) :
    fireTimes (n + 1) s = { fired := true } := by
  induction n generalizing s with
  | zero => rfl
  | succ m ih => exact ih s.fire

/-- C8: the shutdown signal is single-fire and idempotent — any positive
number of racing fires leaves the same fired state as one fire and unblocks
the top-level waiter — and regardless of how many tasks fired it the trace
performs one orderly teardown after the wait: terminal restore, then socket
close, each exactly once. -/
theorem shutdown_signal_single_fire (env : Env) (machine : String)
    (s : ShutdownSignal) (n : Nat) (hn : 1 ≤ n) :
    (fireTimes n s).unblocked = true ∧
    fireTimes n s = ShutdownSignal.fire s ∧
    ShutdownSignal.fire (ShutdownSignal.fire s) = ShutdownSignal.fire s ∧
    (Event.waitShutdown ∈ sshRun env machine →
      ∃ pre, sshRun env machine =
          pre ++ [Event.waitShutdown, Event.termReset, Event.sockClose,
            Event.bodyClose] ∧
        Event.termReset ∉ pre ∧ Event.sockClose ∉ pre) := by
  obtain ⟨m, rfl⟩ : ∃ m, n = m + 1 := ⟨n - 1, (Nat.succ_pred_eq_of_pos hn).symm⟩
  refine ⟨by rw [fireTimes_pos]; rfl, by rw [fireTimes_pos]; rfl, rfl, ?_⟩
  intro hw
  rcases sshRun_shape env machine with
    ⟨e, _, heq⟩ | ⟨e, _, _, heq⟩ | ⟨server, e, _, _, _, heq⟩ |
    ⟨server, token, e, _, _, _, _, heq⟩ |
    ⟨server, token, resp, e, _, _, _, _, _, heq⟩ |
    ⟨server, token, resp, ev, _, _, _, _, _, hd, heq⟩ |
    ⟨server, token, resp, ev, d, e, _, _, _, _, _, hd, _, heq⟩ |
    ⟨server, token, resp, ev, d, _, _, _, _, _, hd, _, heq⟩
  · rw [heq] at hw; simp at hw
  · rw [heq] at hw; simp at hw
  · rw [heq] at hw; simp at hw
  · rw [heq] at hw; simp at hw
  · rw [heq] at hw; simp at hw
  · exfalso; rw [heq] at hw; simp at hw
    rcases dial_ev_mem hd hw with ⟨u, hh, hx⟩ | hx <;> simp at hx
  · exfalso; rw [heq] at hw; simp at hw
    rcases dial_ev_mem hd hw with ⟨u, hh, hx⟩ | hx <;> simp at hx
  · rcases afterConnect_shape env [Event.bodyClose] with
      ⟨e, hraw, hafter⟩ | ⟨e, hraw, hres, hafter⟩ | ⟨hraw, hres, hafter⟩
    · exfalso; rw [heq, hafter] at hw; simp at hw
      rcases dial_ev_mem hd hw with ⟨u, hh, hx⟩ | hx <;> simp at hx
    · exfalso; rw [heq, hafter] at hw; simp at hw
      rcases dial_ev_mem hd hw with ⟨u, hh, hx⟩ | hx <;> simp at hx
    · refine ⟨Event.httpRequest (sessionRequest server machine token) sshClientPolicy ::
          Event.bodyRead :: ev ++
          [Event.rawModeOn, Event.sockWrite (Frame.resize env.geometry),
           Event.tasksStarted], ?_, ?_, ?_⟩
      · rw [heq, hafter]; simp
      · intro hx
        simp at hx
        rcases dial_ev_mem hd hx with ⟨u, hh, h⟩ | h <;> simp at h
      · intro hx
        simp at hx
        rcases dial_ev_mem hd hx with ⟨u, hh, h⟩ | h <;> simp at h

theorem shutdown_signal_single_fire_witness :
    (fireTimes 3 { fired := false }).unblocked = true ∧
    fireTimes 3 { fired := false } = ShutdownSignal.fire { fired := false } ∧
    ShutdownSignal.fire (ShutdownSignal.fire { fired := false }) =
      ShutdownSignal.fire { fired := false } ∧
    (∃ pre, sshRun okEnv "m1" =
        pre ++ [Event.waitShutdown, Event.termReset, Event.sockClose,
          Event.bodyClose] ∧
      Event.termReset ∉ pre ∧ Event.sockClose ∉ pre) :=
  have h := shutdown_signal_single_fire okEnv "m1" { fired := false } 3 (by decide)
  ⟨h.1, h.2.1, h.2.2.1, h.2.2.2 (by decide)⟩

/-! ### Metering diff (src/main.go lines 278-305)

`calculateDiffs` walks the end snapshot (`map[string]map[string]string`,
embedded as association lists, first binding wins) and replaces counter
entries by the formatted difference of end and start values.  The external
`strconv.ParseFloat`, float subtraction and `fmt.Sprintf("%f", ...)` appear
at their boundary as parameters. -/

/-- Go map lookup returning presence: `v, ok := m[k]`. -/
def mapFind? {V : Type} (m : List (String × V)) (k : String) : Option V :=
  (m.find? (fun p => p.1 == k)).map Prod.snd

/-- Go map indexing `m[k]` for `map[string]string`: zero value `""` when the
key is absent. -/
def mapIndex (m : List (String × String)) (k : String) : String :=
  (mapFind? m k).getD ""

/-- The body of the double loop of `calculateDiffs` for one entry
`(machineId, metric, valueEnd)`: each `continue` leaves the entry unchanged.
```go
if metricsSet[metric] != "counter" { continue }
if _, ok := machineMetricsStart[machineId]; !ok { continue }
if _, ok := machineMetricsStart[machineId][metric]; !ok { continue }
valueStart := machineMetricsStart[machineId][metric]
valueStartFloat, err := strconv.ParseFloat(valueStart, 64)
if err != nil { fmt.Println(err); continue }
valueEndFloat, err := strconv.ParseFloat(valueEnd, 64)
if err != nil { fmt.Println(err); continue }
machineMetricsEnd[machineId][metric] = fmt.Sprintf("%f", valueEndFloat-valueStartFloat)
```
-/
def diffEntry {F : Type} (parseFloat : String → Option F) (sub : F → F → F)
    (format : F → String)
    (machineMetricsStart : List (String × List (String × String)))
    (metricsSet : List (String × String))
    (machineId metric valueEnd : String) : String :=
  if mapIndex metricsSet metric ≠ "counter" then valueEnd
  else match mapFind? machineMetricsStart machineId with
    | none => valueEnd
    | some startMetrics =>
      match mapFind? startMetrics metric with
      | none => valueEnd
      | some valueStart =>
        match parseFloat valueStart with
        | none => valueEnd
        | some valueStartFloat =>
          match parseFloat valueEnd with
          | none => valueEnd
          | some valueEndFloat => format (sub valueEndFloat valueStartFloat)

/-- `calculateDiffs` (lines 278-305): updates every entry of the end
snapshot in place by `diffEntry` and returns that same map; the key
structure of the end snapshot is untouched and the start snapshot is only
read. -/
def calculateDiffs {F : Type} (parseFloat : String → Option F)
    (sub : F → F → F) (format : F → String)
    (machineMetricsStart machineMetricsEnd : List (String × List (String × String)))
    (metricsSet : List (String × String)) :
    List (String × List (String × String)) :=
  machineMetricsEnd.map (fun mm =>
    (mm.1, mm.2.map (fun kv =>
      (kv.1, diffEntry parseFloat sub format machineMetricsStart metricsSet
        mm.1 kv.1 kv.2))))

/-- `find?` over a key-preserving per-entry map. -/
theorem find?_key_map {α β : Type} (l : List (String × α))
    (g : String × α → β) (k : String) :
    (l.map (fun p => (p.1, g p))).find? (fun p => p.1 == k) =
      (l.find? (fun p => p.1 == k)).map (fun p => (p.1, g p)) := by
  induction l with
  | nil => rfl
  | cons p l ih =>
    by_cases hk : (p.1 == k) = true
    · simp [List.find?_cons_of_pos, hk]
    · rw [List.map_cons, List.find?_cons_of_neg _ (by simpa using hk),
        List.find?_cons_of_neg _ (by simpa using hk), ih]

/-- C10: `calculateDiffs` returns the end snapshot with its key structure
untouched (the in-place update of that same map); for every machine and
metric of the end snapshot the stored entry becomes `diffEntry` of the old
value, and `diffEntry` replaces the value by the formatted difference (end
minus start) exactly when the metric's value type is "counter", the start
snapshot has both the machine and the metric, and both values parse; in
every other case the entry is left unchanged.  The start snapshot is only
read. -/
theorem calculateDiffs_frame {F : Type} (parseFloat : String → Option F)
    (sub : F → F → F) (format : F → String)
    (start endM : List (String × List (String × String)))
    (ms : List (String × String))
    (machineId metric v : String) (metrics : List (String × String))
    (hm : mapFind? endM machineId = some metrics)
    (hv : mapFind? metrics metric = some v) :
    (calculateDiffs parseFloat sub format start endM ms).map Prod.fst =
      endM.map Prod.fst ∧
    (∃ metrics2,
      mapFind? (calculateDiffs parseFloat sub format start endM ms) machineId =
        some metrics2 ∧
      metrics2.map Prod.fst = metrics.map Prod.fst ∧
      mapFind? metrics2 metric =
        some (diffEntry parseFloat sub format start ms machineId metric v)) ∧
    (∀ mid k val,
      (∀ sm vs fs fe, mapIndex ms k = "counter" →
        mapFind? start mid = some sm → mapFind? sm k = some vs →
        parseFloat vs = some fs → parseFloat val = some fe →
        diffEntry parseFloat sub format start ms mid k val = format (sub fe fs)) ∧
      (mapIndex ms k ≠ "counter" →
        diffEntry parseFloat sub format start ms mid k val = val) ∧
      (mapFind? start mid = none →
        diffEntry parseFloat sub format start ms mid k val = val) ∧
      (∀ sm, mapFind? start mid = some sm → mapFind? sm k = none →
        diffEntry parseFloat sub format start ms mid k val = val) ∧
      (∀ sm vs, mapFind? start mid = some sm → mapFind? sm k = some vs →
        parseFloat vs = none →
        diffEntry parseFloat sub format start ms mid k val = val) ∧
      (∀ sm vs fs, mapFind? start mid = some sm → mapFind? sm k = some vs →
        parseFloat vs = some fs → parseFloat val = none →
        diffEntry parseFloat sub format start ms mid k val = val)) := by
  refine ⟨by unfold calculateDiffs; simp, ?_, ?_⟩
  · unfold mapFind? at hm
    obtain ⟨mm, hfind, hsnd⟩ := Option.map_eq_some'.mp hm
    have hkey : mm.1 = machineId := eq_of_beq (by simpa using List.find?_some hfind)
    refine ⟨metrics.map (fun kv => (kv.1,
      diffEntry parseFloat sub format start ms machineId kv.1 kv.2)), ?_, by simp, ?_⟩
    · unfold calculateDiffs mapFind?
      rw [find?_key_map endM (fun mm => mm.2.map (fun kv => (kv.1,
        diffEntry parseFloat sub format start ms mm.1 kv.1 kv.2))) machineId, hfind]
      simp [hkey, hsnd]
    · unfold mapFind? at hv ⊢
      obtain ⟨kv0, hfind2, hsnd2⟩ := Option.map_eq_some'.mp hv
      have hk2 : kv0.1 = metric := eq_of_beq (by simpa using List.find?_some hfind2)
      rw [find?_key_map metrics (fun kv =>
        diffEntry parseFloat sub format start ms machineId kv.1 kv.2) metric, hfind2]
      simp [hk2, hsnd2]
  · intro mid k val
    refine ⟨?_, ?_, ?_, ?_, ?_, ?_⟩
    · intro sm vs fs fe hc hsm hvs hfs hfe
      unfold diffEntry
      rw [if_neg (by simp [hc]), hsm]
      dsimp only
      rw [hvs]
      dsimp only
      rw [hfs]
      dsimp only
      rw [hfe]
    · intro hc
      unfold diffEntry
      rw [if_pos hc]
    · intro hsm
      unfold diffEntry
      by_cases hc : mapIndex ms k ≠ "counter"
      · rw [if_pos hc]
      · rw [if_neg hc, hsm]
    · intro sm hsm hvs
      unfold diffEntry
      by_cases hc : mapIndex ms k ≠ "counter"
      · rw [if_pos hc]
      · rw [if_neg hc, hsm]
        dsimp only
        rw [hvs]
    · intro sm vs hsm hvs hfs
      unfold diffEntry
      by_cases hc : mapIndex ms k ≠ "counter"
      · rw [if_pos hc]
      · rw [if_neg hc, hsm]
        dsimp only
        rw [hvs]
        dsimp only
        rw [hfs]
    · intro sm vs fs hsm hvs hfs hfe
      unfold diffEntry
      by_cases hc : mapIndex ms k ≠ "counter"
      · rw [if_pos hc]
      · rw [if_neg hc, hsm]
        dsimp only
        rw [hvs]
        dsimp only
        rw [hfs]
        dsimp only
        rw [hfe]

theorem calculateDiffs_frame_witness :
    mapFind? [("mach1", ([("cpu", "25"), ("mem", "7")] : List (String × String)))]
        "mach1" = some [("cpu", "25"), ("mem", "7")] ∧
    mapFind? [("cpu", "25"), ("mem", "7")] "cpu" = some "25" ∧
    (calculateDiffs String.toNat? Nat.sub toString
        [("mach1", [("cpu", "10"), ("mem", "5")])]
        [("mach1", [("cpu", "25"), ("mem", "7")])]
        [("cpu", "counter"), ("mem", "gauge")]).map Prod.fst =
      [("mach1", [("cpu", "25"), ("mem", "7")])].map Prod.fst ∧
    (∃ metrics2,
      mapFind? (calculateDiffs String.toNat? Nat.sub toString
          [("mach1", [("cpu", "10"), ("mem", "5")])]
          [("mach1", [("cpu", "25"), ("mem", "7")])]
          [("cpu", "counter"), ("mem", "gauge")]) "mach1" = some metrics2 ∧
      metrics2.map Prod.fst =
        ([("cpu", "25"), ("mem", "7")] : List (String × String)).map Prod.fst ∧
      mapFind? metrics2 "cpu" =
        some (diffEntry String.toNat? Nat.sub toString
          [("mach1", [("cpu", "10"), ("mem", "5")])]
          [("cpu", "counter"), ("mem", "gauge")] "mach1" "cpu" "25")) :=
  have h := calculateDiffs_frame String.toNat? Nat.sub toString
    [("mach1", [("cpu", "10"), ("mem", "5")])]
    [("mach1", [("cpu", "25"), ("mem", "7")])]
    [("cpu", "counter"), ("mem", "gauge")]
    "mach1" "cpu" "25" [("cpu", "25"), ("mem", "7")] (by decide) (by decide)
  ⟨by decide, by decide, h.1, h.2.1⟩

end MistCli
